import Mathlib

/-!
# Verification of the `mft_engine` decision core

Shallow embedding, over the exact rationals `ℚ`, of the risk module
(`src/mft_engine/src/risk.rs`), the GARCH(1,1) volatility filter
(`src/mft_engine/src/models/garch.rs`), the Ornstein-Uhlenbeck estimator
(`src/mft_engine/src/models/ou_process.rs`), the order-flow engines
(`src/mft_engine/src/models/ofi.rs`), and the bar-to-tick conversion
(`src/mft_engine/src/data.rs`).

Rust `f64` arithmetic is modelled by exact rational arithmetic.  The
transcendental `f64` operations (the standard-normal CDF, `ln`, `sqrt`) are
abstracted as explicit function parameters: the properties verified here do
not depend on their values, only on how their results are combined and
compared.  Rust float literals such as `1e-10` become the exact rationals
`1 / 10 ^ 10`.  The `while` loop of `VpinEngine::push` is embedded as a
fuel-indexed recursion returning `none` when the fuel runs out; a separate
theorem shows that enough fuel always exists.
-/

namespace MftEngine

/-- The fields of `AppConfig` (`src/mft_engine/src/config.rs`) that are read
by the risk module.  Only the fields used by the embedded functions are
included; all are `f64` in the source, modelled as `ℚ`. -/
structure AppConfig where
  taker_fee      : ℚ
  slippage       : ℚ
  stop_loss_frac : ℚ
  min_p_win      : ℚ
deriving DecidableEq

/-- Result record of an EV evaluation, mirroring `EvResult` in `risk.rs`. -/
structure EvResult where
  p_win     : ℚ
  p_loss    : ℚ
  avg_win   : ℚ
  avg_loss  : ℚ
  ev        : ℚ
  total_fee : ℚ
  is_viable : Bool
deriving DecidableEq

/-- Embedding of `evaluate_ev` (`risk.rs`, lines 80-116).  `cdf` abstracts
the standard-normal CDF `Normal::new(0,1).cdf`; the Rust
`.max(0.0).min(1.0)` clamp becomes `min (max _ 0) 1`. -/
def evaluate_ev (cdf : ℚ → ℚ) (z_score sigma_ou entry_price z_exit : ℚ)
    (cfg : AppConfig) : EvResult :=
  let total_fee := 2 * cfg.taker_fee + cfg.slippage
  let p_win := min (max (cdf (|z_score| - z_exit)) 0) 1
  let p_loss := 1 - p_win
  let z_travel := max (|z_score| - z_exit) 0
  let avg_win := if 0 < entry_price then z_travel * sigma_ou / entry_price else 0
  let avg_loss := cfg.stop_loss_frac
  let ev := p_win * avg_win - p_loss * avg_loss
  let is_viable := decide (total_fee < ev ∧ cfg.min_p_win ≤ p_win)
  ⟨p_win, p_loss, avg_win, avg_loss, ev, total_fee, is_viable⟩

/-- Embedding of `kelly_fraction` (`risk.rs`, lines 135-157).  The Rust
parameter `kelly_fraction` (which shadows the function name) is rendered
`kelly_scale`. -/
def kelly_fraction (p_win avg_win avg_loss kelly_scale max_risk : ℚ) : ℚ :=
  if avg_loss < 1 / 10 ^ 10 ∨ avg_win < 1 / 10 ^ 10 then 0
  else if (p_win * (avg_win / avg_loss) - (1 - p_win)) / (avg_win / avg_loss) ≤ 0 then 0
  else
    max (min ((p_win * (avg_win / avg_loss) - (1 - p_win)) / (avg_win / avg_loss) *
      kelly_scale) max_risk) 0

/-- Embedding of `position_size` (`risk.rs`, lines 162-172).  The `u32`
leverage is modelled as `ℕ` and cast to `ℚ` as in the source. -/
def position_size (equity f_risk : ℚ) (leverage : ℕ) (entry_price : ℚ) : ℚ :=
  if entry_price < 1 / 10 ^ 8 then 0
  else equity * f_risk * (leverage : ℚ) / entry_price

/-- State of the GARCH(1,1) filter, mirroring `Garch11` in
`models/garch.rs`. -/
structure Garch11 where
  omega : ℚ
  alpha : ℚ
  beta  : ℚ
  sigma2 : ℚ
  prev_epsilon : ℚ
  bars_per_year : ℚ
deriving DecidableEq

/-- Embedding of `Garch11::new` (`garch.rs`, lines 59-73).  The Rust
`assert!(alpha + beta < 1.0)` panic is modelled by returning `none`. -/
def Garch11.new (omega alpha beta bars_per_year : ℚ) : Option Garch11 :=
  if alpha + beta < 1 then
    some ⟨omega, alpha, beta, omega / (1 - alpha - beta), 0, bars_per_year⟩
  else
    none

/-- Embedding of `Garch11::update` (`garch.rs`, lines 82-91): the variance
is advanced with the previous shock before the new shock is recorded. -/
def Garch11.update (g : Garch11) (r mu : ℚ) : Garch11 :=
  { g with
    sigma2 := g.omega + g.alpha * g.prev_epsilon ^ 2 + g.beta * g.sigma2,
    prev_epsilon := r - mu }

/-- Claim C1: for every configuration, abstract CDF, and inputs with
`entry_price > 0`, `evaluate_ev` reports `is_viable = true` iff
`EV > C = 2*taker_fee + slippage` and `p_win ≥ min_p_win`, with
`p_win = clamp (Φ (|z| - z_exit)) 0 1`,
`avg_win = max (|z| - z_exit) 0 * sigma_ou / entry_price`,
`avg_loss = stop_loss_frac`, and
`EV = p_win * avg_win - (1 - p_win) * avg_loss`. -/
theorem evaluate_ev_viable_iff (cdf : ℚ → ℚ) (z sigma_ou entry_price z_exit : ℚ)
    (cfg : AppConfig) (hp : 0 < entry_price) :
    ((evaluate_ev cdf z sigma_ou entry_price z_exit cfg).is_viable = true ↔
      (min (max (cdf (|z| - z_exit)) 0) 1 *
          (max (|z| - z_exit) 0 * sigma_ou / entry_price) -
        (1 - min (max (cdf (|z| - z_exit)) 0) 1) * cfg.stop_loss_frac >
          2 * cfg.taker_fee + cfg.slippage ∧
       min (max (cdf (|z| - z_exit)) 0) 1 ≥ cfg.min_p_win)) := by
  simp only [evaluate_ev, if_pos hp, decide_eq_true_eq]

/-- Witness for C1 at a concrete input: constant CDF `1`, `z = 1`,
`sigma_ou = 1`, `entry_price = 1`, `z_exit = 0`, all fees zero. -/
theorem evaluate_ev_viable_iff_witness :
    (0 : ℚ) < 1 ∧
    ((evaluate_ev (fun _ => 1) 1 1 1 0 ⟨0, 0, 0, 0⟩).is_viable = true ↔
      (min (max ((fun (_ : ℚ) => (1 : ℚ)) (|(1 : ℚ)| - 0)) 0) 1 *
          (max (|(1 : ℚ)| - 0) 0 * 1 / 1) -
        (1 - min (max ((fun (_ : ℚ) => (1 : ℚ)) (|(1 : ℚ)| - 0)) 0) 1) *
          (⟨0, 0, 0, 0⟩ : AppConfig).stop_loss_frac >
          2 * (⟨0, 0, 0, 0⟩ : AppConfig).taker_fee + (⟨0, 0, 0, 0⟩ : AppConfig).slippage ∧
       min (max ((fun (_ : ℚ) => (1 : ℚ)) (|(1 : ℚ)| - 0)) 0) 1 ≥
          (⟨0, 0, 0, 0⟩ : AppConfig).min_p_win)) :=
  ⟨by norm_num, evaluate_ev_viable_iff (fun _ => 1) 1 1 1 0 ⟨0, 0, 0, 0⟩ (by norm_num)⟩

/-- Counterexample to claim C2 as stated: at
`p_win = 1, avg_win = 1/10^11, avg_loss = 1, kelly_scale = 1, max_risk = 1`
all of the claim's validity conditions hold and the raw Kelly fraction is
`f* = 1 > 0`, so the claim demands `min (f* * kelly_scale) max_risk = 1`;
the code returns `0` because `avg_win` falls below its `1e-10` cutoff. -/
theorem kelly_fraction_counterexample :
    kelly_fraction 1 (1 / 10 ^ 11) 1 1 1 = 0 ∧
    (0 : ℚ) ≤ 1 ∧ (1 : ℚ) ≤ 1 ∧ (0 : ℚ) ≤ 1 ∧
    (0 : ℚ) < 1 / 10 ^ 11 ∧ (0 : ℚ) < 1 ∧
    (0 : ℚ) < (1 * ((1 / 10 ^ 11) / 1) - (1 - 1)) / ((1 / 10 ^ 11) / 1) ∧
    min ((1 * ((1 / 10 ^ 11) / 1) - (1 - 1)) / ((1 / 10 ^ 11) / 1) * 1) 1 = (1 : ℚ) ∧
    (0 : ℚ) ≠ 1 := by
  refine ⟨?_, by norm_num, by norm_num, by norm_num, by norm_num, by norm_num,
    by norm_num, by norm_num, by norm_num⟩
  norm_num [kelly_fraction]

/-- Claim C2 (amended): for `p_win ∈ [0,1]`, `kelly_scale ≥ 0`,
`max_risk ≥ 0`, the result never exceeds `max_risk`; it is `0` whenever
`avg_win < 1e-10` or `avg_loss < 1e-10` (in particular whenever either is
`≤ 0`), and whenever the raw Kelly `f* = (p_win*b - (1-p_win))/b` with
`b = avg_win/avg_loss` is `≤ 0`; otherwise it is
`min (f* * kelly_scale) max_risk`. -/
theorem kelly_fraction_spec (p_win avg_win avg_loss kelly_scale max_risk : ℚ)
    (hp0 : 0 ≤ p_win) (hp1 : p_win ≤ 1)
    (hks : 0 ≤ kelly_scale) (hmr : 0 ≤ max_risk) :
    kelly_fraction p_win avg_win avg_loss kelly_scale max_risk ≤ max_risk ∧
    (avg_win < 1 / 10 ^ 10 ∨ avg_loss < 1 / 10 ^ 10 →
      kelly_fraction p_win avg_win avg_loss kelly_scale max_risk = 0) ∧
    (avg_win ≤ 0 ∨ avg_loss ≤ 0 →
      kelly_fraction p_win avg_win avg_loss kelly_scale max_risk = 0) ∧
    (1 / 10 ^ 10 ≤ avg_win → 1 / 10 ^ 10 ≤ avg_loss →
      (p_win * (avg_win / avg_loss) - (1 - p_win)) / (avg_win / avg_loss) ≤ 0 →
      kelly_fraction p_win avg_win avg_loss kelly_scale max_risk = 0) ∧
    (1 / 10 ^ 10 ≤ avg_win → 1 / 10 ^ 10 ≤ avg_loss →
      0 < (p_win * (avg_win / avg_loss) - (1 - p_win)) / (avg_win / avg_loss) →
      kelly_fraction p_win avg_win avg_loss kelly_scale max_risk =
        min ((p_win * (avg_win / avg_loss) - (1 - p_win)) / (avg_win / avg_loss) *
          kelly_scale) max_risk) := by
  refine ⟨?_, ?_, ?_, ?_, ?_⟩
  · unfold kelly_fraction
    split
    · exact hmr
    · split
      · exact hmr
      · exact max_le (min_le_right _ _) hmr
  · intro h
    unfold kelly_fraction
    rw [if_pos h.symm]
  · intro h
    unfold kelly_fraction
    have : avg_loss < 1 / 10 ^ 10 ∨ avg_win < 1 / 10 ^ 10 := by
      rcases h with h | h
      · exact Or.inr (lt_of_le_of_lt h (by norm_num))
      · exact Or.inl (lt_of_le_of_lt h (by norm_num))
    rw [if_pos this]
  · intro hw hl hf
    unfold kelly_fraction
    rw [if_neg (by push_neg; exact ⟨hl, hw⟩), if_pos hf]
  · intro hw hl hf
    unfold kelly_fraction
    rw [if_neg (by push_neg; exact ⟨hl, hw⟩), if_neg (not_le.mpr hf)]
    have hmin : 0 ≤ min ((p_win * (avg_win / avg_loss) - (1 - p_win)) /
        (avg_win / avg_loss) * kelly_scale) max_risk :=
      le_min (mul_nonneg (le_of_lt hf) hks) hmr
    exact max_eq_left hmin

/-- Witness for C2 (amended) at
`p_win = 3/5, avg_win = 1/100, avg_loss = 1/200, kelly_scale = 1/4,
max_risk = 1/100`. -/
theorem kelly_fraction_spec_witness :
    kelly_fraction (3/5) (1/100) (1/200) (1/4) (1/100) ≤ 1/100 ∧
    ((1:ℚ)/100 < 1 / 10 ^ 10 ∨ (1:ℚ)/200 < 1 / 10 ^ 10 →
      kelly_fraction (3/5) (1/100) (1/200) (1/4) (1/100) = 0) ∧
    ((1:ℚ)/100 ≤ 0 ∨ (1:ℚ)/200 ≤ 0 →
      kelly_fraction (3/5) (1/100) (1/200) (1/4) (1/100) = 0) ∧
    ((1:ℚ) / 10 ^ 10 ≤ 1/100 → (1:ℚ) / 10 ^ 10 ≤ 1/200 →
      ((3:ℚ)/5 * ((1/100) / (1/200)) - (1 - 3/5)) / ((1/100) / (1/200)) ≤ 0 →
      kelly_fraction (3/5) (1/100) (1/200) (1/4) (1/100) = 0) ∧
    ((1:ℚ) / 10 ^ 10 ≤ 1/100 → (1:ℚ) / 10 ^ 10 ≤ 1/200 →
      0 < ((3:ℚ)/5 * ((1/100) / (1/200)) - (1 - 3/5)) / ((1/100) / (1/200)) →
      kelly_fraction (3/5) (1/100) (1/200) (1/4) (1/100) =
        min (((3:ℚ)/5 * ((1/100) / (1/200)) - (1 - 3/5)) / ((1/100) / (1/200)) *
          (1/4)) (1/100)) :=
  kelly_fraction_spec (3/5) (1/100) (1/200) (1/4) (1/100)
    (by norm_num) (by norm_num) (by norm_num) (by norm_num)

/-- Counterexample to claim C8 as stated: at
`equity = 1, f_risk = 1, leverage = 1, entry_price = 1/10^9` the entry price
is positive, the claim demands `1 * 1 * 1 / (1/10^9) = 10^9`, but the code
returns `0` because the entry price falls below its `1e-8` cutoff. -/
theorem position_size_counterexample :
    position_size 1 1 1 (1 / 10 ^ 9) = 0 ∧
    (0 : ℚ) < 1 / 10 ^ 9 ∧
    (1 : ℚ) * 1 * (1 : ℕ) / (1 / 10 ^ 9) = 10 ^ 9 ∧
    (0 : ℚ) ≠ 10 ^ 9 := by
  refine ⟨?_, by norm_num, by norm_num, by norm_num⟩
  norm_num [position_size]

/-- Claim C8 (amended): `position_size` returns
`equity * f_risk * leverage / entry_price` whenever `entry_price ≥ 1e-8`,
and returns `0` whenever `entry_price < 1e-8` — in particular whenever
`entry_price` is non-positive. -/
theorem position_size_spec (equity f_risk : ℚ) (leverage : ℕ) (entry_price : ℚ) :
    (1 / 10 ^ 8 ≤ entry_price →
      position_size equity f_risk leverage entry_price =
        equity * f_risk * (leverage : ℚ) / entry_price) ∧
    (entry_price < 1 / 10 ^ 8 →
      position_size equity f_risk leverage entry_price = 0) ∧
    (entry_price ≤ 0 →
      position_size equity f_risk leverage entry_price = 0) := by
  refine ⟨?_, ?_, ?_⟩
  · intro h
    unfold position_size
    rw [if_neg (not_lt.mpr h)]
  · intro h
    unfold position_size
    rw [if_pos h]
  · intro h
    unfold position_size
    rw [if_pos (lt_of_le_of_lt h (by norm_num))]

/-- Witness for C8 (amended) at `equity = 1000, f_risk = 1/100,
leverage = 10, entry_price = 50000`. -/
theorem position_size_spec_witness :
    ((1:ℚ) / 10 ^ 8 ≤ 50000 →
      position_size 1000 (1/100) 10 50000 = 1000 * (1/100) * ((10 : ℕ) : ℚ) / 50000) ∧
    ((50000:ℚ) < 1 / 10 ^ 8 → position_size 1000 (1/100) 10 50000 = 0) ∧
    ((50000:ℚ) ≤ 0 → position_size 1000 (1/100) 10 50000 = 0) :=
  position_size_spec 1000 (1/100) 10 50000

/-- Claim C3: `Garch11::new` fails exactly when `alpha + beta ≥ 1`; on
success the state carries `sigma2 = omega / (1 - alpha - beta)` and a
previous shock of `0`. -/
theorem garch_new_spec (omega alpha beta bpy : ℚ) :
    (Garch11.new omega alpha beta bpy = none ↔ 1 ≤ alpha + beta) ∧
    (∀ g, Garch11.new omega alpha beta bpy = some g →
      g.sigma2 = omega / (1 - alpha - beta) ∧ g.prev_epsilon = 0) := by
  constructor
  · unfold Garch11.new
    split
    · rename_i h
      simp only [reduceCtorEq, false_iff, not_le]
      exact h
    · rename_i h
      simp only [true_iff]
      exact not_lt.mp h
  · intro g hg
    unfold Garch11.new at hg
    split at hg
    · cases hg
      exact ⟨rfl, rfl⟩
    · cases hg

/-- Witness for C3 at `omega = 1, alpha = 1/4, beta = 1/4`. -/
theorem garch_new_spec_witness :
    (⟨1, 1/4, 1/4, 2, 0, 1⟩ : Garch11).sigma2 = 1 / (1 - 1/4 - 1/4) ∧
    (⟨1, 1/4, 1/4, 2, 0, 1⟩ : Garch11).prev_epsilon = 0 :=
  (garch_new_spec 1 (1/4) (1/4) 1).2 ⟨1, 1/4, 1/4, 2, 0, 1⟩ (by
    unfold Garch11.new
    norm_num)

/-- Counterexample to claim C4 as stated: with `omega = 1, alpha = beta = 1/4`
(long-run variance `2`) and a spike return `4`, the calm updates that follow
the post-spike jump take `sigma2` from `75/32` to `203/128`: the distance to
the long-run variance grows from `11/32` to `53/128`, so `sigma2` does not
decay monotonically back toward the long-run variance — it crosses below it
and moves away (its calm-update limit is `omega / (1 - beta) = 4/3`). -/
theorem garch_update_decay_counterexample :
    Garch11.new 1 (1/4) (1/4) 1 = some (⟨1, 1/4, 1/4, 2, 0, 1⟩ : Garch11) ∧
    (0 : ℚ) < 1/4 ∧
    (1 : ℚ) / (1 - 1/4 - 1/4) = 2 ∧
    ((((⟨1, 1/4, 1/4, 2, 0, 1⟩ : Garch11).update 4 0).update 0 0).update 0 0).sigma2
      = 75/32 ∧
    (((((⟨1, 1/4, 1/4, 2, 0, 1⟩ : Garch11).update 4 0).update 0 0).update 0 0).update 0 0).sigma2
      = 203/128 ∧
    |(203 : ℚ)/128 - 2| > |(75 : ℚ)/32 - 2| := by
  refine ⟨by unfold Garch11.new; norm_num, by norm_num, by norm_num,
    by simp only [Garch11.update]; norm_num, by simp only [Garch11.update]; norm_num, ?_⟩
  rw [show (203 : ℚ)/128 - 2 = -(53/128) by norm_num, abs_neg,
    show (75 : ℚ)/32 - 2 = 11/32 by norm_num,
    abs_of_nonneg (by norm_num : (0:ℚ) ≤ 53/128),
    abs_of_nonneg (by norm_num : (0:ℚ) ≤ 11/32)]
  norm_num

/-- Claim C4 (amended): `update r mean` sets
`sigma2 := omega + alpha * eps_prev^2 + beta * sigma2_old` from the shock
stored before the call and only then records `eps := r - mean`; hence the
new `sigma2` does not depend on `r`, and with `alpha > 0` a larger squared
shock strictly increases `sigma2` on the following update.  Under calm
updates (`r = mean = 0`) from a zero stored shock, `sigma2` strictly
decreases while above `omega / (1 - beta)` and never falls below that
level — which for `alpha > 0` lies strictly below the long-run variance
`omega / (1 - alpha - beta)`, so the decay is toward `omega / (1 - beta)`,
not toward the long-run variance. -/
theorem garch_update_spec (g : Garch11) (r r' mu s mu' : ℚ) :
    ((g.update r mu).sigma2
        = g.omega + g.alpha * g.prev_epsilon ^ 2 + g.beta * g.sigma2 ∧
      (g.update r mu).prev_epsilon = r - mu) ∧
    (g.update r mu).sigma2 = (g.update r' mu).sigma2 ∧
    (0 < g.alpha → (r' - mu) ^ 2 < (r - mu) ^ 2 →
      ((g.update r' mu).update s mu').sigma2
        < ((g.update r mu).update s mu').sigma2) ∧
    (0 ≤ g.beta → g.beta < 1 → g.prev_epsilon = 0 →
      g.omega / (1 - g.beta) < g.sigma2 →
      (g.update 0 0).sigma2 < g.sigma2 ∧
        g.omega / (1 - g.beta) ≤ (g.update 0 0).sigma2) ∧
    (0 < g.alpha → 0 ≤ g.omega → 0 < 1 - g.alpha - g.beta → 0 < g.sigma2 →
      g.omega / (1 - g.beta) ≤ g.omega / (1 - g.alpha - g.beta)) := by
  have hupd : ∀ (a b : ℚ), (g.update a b).sigma2
      = g.omega + g.alpha * g.prev_epsilon ^ 2 + g.beta * g.sigma2 :=
    fun _ _ => rfl
  have hupd2 : ∀ (h : Garch11) (a b : ℚ), (h.update a b).sigma2
      = h.omega + h.alpha * h.prev_epsilon ^ 2 + h.beta * h.sigma2 :=
    fun _ _ _ => rfl
  refine ⟨⟨hupd r mu, rfl⟩, (hupd r mu).trans (hupd r' mu).symm, ?_, ?_, ?_⟩
  · intro ha hsq
    have hflds : ∀ (h : Garch11) (a b : ℚ), (h.update a b).omega = h.omega ∧
        (h.update a b).alpha = h.alpha ∧ (h.update a b).beta = h.beta ∧
        (h.update a b).prev_epsilon = a - b :=
      fun _ _ _ => ⟨rfl, rfl, rfl, rfl⟩
    rw [hupd2 (g.update r' mu) s mu', hupd2 (g.update r mu) s mu',
      (hflds g r mu).1, (hflds g r mu).2.1, (hflds g r mu).2.2.1, (hflds g r mu).2.2.2,
      (hflds g r' mu).1, (hflds g r' mu).2.1, (hflds g r' mu).2.2.1,
      (hflds g r' mu).2.2.2, hupd r mu, hupd r' mu]
    have := mul_lt_mul_of_pos_left hsq ha
    linarith
  · intro hb0 hb1 heps hσ
    have h1 : (0 : ℚ) < 1 - g.beta := by linarith
    rw [div_lt_iff h1] at hσ
    constructor
    · rw [hupd 0 0, heps]
      nlinarith
    · rw [hupd 0 0, heps, div_le_iff h1]
      nlinarith
  · intro ha hω hs hσ
    have h1 : (0 : ℚ) < 1 - g.beta := by linarith
    rw [div_le_div_iff h1 hs]
    nlinarith

/-- Witness for C4 (amended) at the state `omega = 1, alpha = beta = 1/4,
sigma2 = 2, prev_epsilon = 0` with spike return `4`, calm return `1`, and
zero means. -/
theorem garch_update_spec_witness :
    ((⟨1, 1/4, 1/4, 2, 0, 1⟩ : Garch11).update 4 0).prev_epsilon = 4 - 0 ∧
    ((⟨1, 1/4, 1/4, 2, 0, 1⟩ : Garch11).update 4 0).sigma2
      = ((⟨1, 1/4, 1/4, 2, 0, 1⟩ : Garch11).update 1 0).sigma2 ∧
    (((⟨1, 1/4, 1/4, 2, 0, 1⟩ : Garch11).update 1 0).update 0 0).sigma2
      < (((⟨1, 1/4, 1/4, 2, 0, 1⟩ : Garch11).update 4 0).update 0 0).sigma2 ∧
    (((⟨1, 1/4, 1/4, 2, 0, 1⟩ : Garch11).update 0 0).sigma2
        < (⟨1, 1/4, 1/4, 2, 0, 1⟩ : Garch11).sigma2 ∧
      (⟨1, 1/4, 1/4, 2, 0, 1⟩ : Garch11).omega
          / (1 - (⟨1, 1/4, 1/4, 2, 0, 1⟩ : Garch11).beta)
        ≤ ((⟨1, 1/4, 1/4, 2, 0, 1⟩ : Garch11).update 0 0).sigma2) ∧
    (⟨1, 1/4, 1/4, 2, 0, 1⟩ : Garch11).omega
        / (1 - (⟨1, 1/4, 1/4, 2, 0, 1⟩ : Garch11).beta)
      ≤ (⟨1, 1/4, 1/4, 2, 0, 1⟩ : Garch11).omega
        / (1 - (⟨1, 1/4, 1/4, 2, 0, 1⟩ : Garch11).alpha
          - (⟨1, 1/4, 1/4, 2, 0, 1⟩ : Garch11).beta) := by
  have h := garch_update_spec ⟨1, 1/4, 1/4, 2, 0, 1⟩ 4 1 0 0 0
  exact ⟨h.1.2, h.2.1, h.2.2.1 (by norm_num) (by norm_num),
    h.2.2.2.1 (by norm_num) (by norm_num) rfl (by norm_num),
    h.2.2.2.2 (by norm_num) (by norm_num) (by norm_num) (by norm_num)⟩

/-- Abstraction of the transcendental `f64` operations used by
`models/ou_process.rs`: `rln` models `f64::ln`, `rsqrt` models `f64::sqrt`,
and `ln2` models the constant `std::f64::consts::LN_2`. -/
structure FloatOps where
  rln   : ℚ → ℚ
  rsqrt : ℚ → ℚ
  ln2   : ℚ

/-- Fitted OU parameters, mirroring `OuParams` in `models/ou_process.rs`. -/
structure OuParams where
  mu : ℚ
  sigma_ou : ℚ
  theta : ℚ
  b : ℚ
  half_life : ℚ
deriving DecidableEq

/-- The regression predictor `x = prices[..n-1]` of `OuParams::estimate`. -/
def olsX (prices : List ℚ) : List ℚ := prices.take (prices.length - 1)

/-- The regression response `y = prices[1..]` of `OuParams::estimate`. -/
def olsY (prices : List ℚ) : List ℚ := prices.drop 1

/-- `x_mean` of `OuParams::estimate` (`m = x.len()`). -/
def olsXMean (prices : List ℚ) : ℚ := (olsX prices).sum / ((olsX prices).length : ℚ)

/-- `y_mean` of `OuParams::estimate` (division by `m = x.len()` as in the
source). -/
def olsYMean (prices : List ℚ) : ℚ := (olsY prices).sum / ((olsX prices).length : ℚ)

/-- The OLS numerator `num` of `OuParams::estimate`. -/
def olsNum (prices : List ℚ) : ℚ :=
  (List.zipWith (fun xi yi => (xi - olsXMean prices) * (yi - olsYMean prices))
    (olsX prices) (olsY prices)).sum

/-- The OLS denominator `den` of `OuParams::estimate`: the sum of squared
deviations of the lag-price predictor, zero iff the predictor has zero
variance. -/
def olsDen (prices : List ℚ) : ℚ :=
  ((olsX prices).map (fun xi => (xi - olsXMean prices) ^ 2)).sum

/-- The OLS slope `b = num / den` of `OuParams::estimate`. -/
def olsSlope (prices : List ℚ) : ℚ := olsNum prices / olsDen prices

/-- The OLS intercept `a = y_mean - b * x_mean` of `OuParams::estimate`. -/
def olsIntercept (prices : List ℚ) : ℚ :=
  olsYMean prices - olsSlope prices * olsXMean prices

/-- The regression residuals of `OuParams::estimate`. -/
def residuals (prices : List ℚ) : List ℚ :=
  List.zipWith (fun xi yi => yi - (olsIntercept prices + olsSlope prices * xi))
    (olsX prices) (olsY prices)

/-- Embedding of the helper `std_dev` (`ou_process.rs`, lines 228-236):
sample standard deviation with an `n - 1` denominator, via the abstracted
square root. -/
def std_dev (ops : FloatOps) (data : List ℚ) : ℚ :=
  if data.length < 2 then 0
  else ops.rsqrt
    (((data.map (fun x => (x - data.sum / (data.length : ℚ)) ^ 2)).sum) /
      ((data.length : ℚ) - 1))

/-- Embedding of `OuParams::estimate` (`ou_process.rs`, lines 69-126), with
the Rust locals promoted to the named definitions above.  Every early
`return None` of the source is one of the `if` branches, in source order:
window shorter than 10 points; (near-)zero-variance predictor
(`den.abs() < 1e-12`); slope outside `(0, 1)`; non-positive reversion speed
`theta = -ln b`; degenerate `sqrt(1 - b^2)`. -/
def OuParams.estimate (ops : FloatOps) (prices : List ℚ) : Option OuParams :=
  if prices.length < 10 then none
  else if |olsDen prices| < 1 / 10 ^ 12 then none
  else if olsSlope prices ≤ 0 ∨ 1 ≤ olsSlope prices then none
  else if -ops.rln (olsSlope prices) ≤ 0 then none
  else if ops.rsqrt (1 - olsSlope prices ^ 2) < 1 / 10 ^ 10 then none
  else
    some ⟨olsIntercept prices / (1 - olsSlope prices),
      std_dev ops (residuals prices) / ops.rsqrt (1 - olsSlope prices ^ 2),
      -ops.rln (olsSlope prices),
      olsSlope prices,
      -ops.ln2 / ops.rln (olsSlope prices)⟩

/-- Claim C5: `OuParams::estimate` returns no fit whenever the window has
fewer than 10 points, whenever the lag-price predictor has (near-)zero
variance (`|den| < 1e-12`), and whenever the fitted OLS slope lies outside
the open interval `(0, 1)`; and whenever it does return a fit, the fitted
slope `b` equals the OLS slope and satisfies `0 < b < 1`. -/
theorem ou_estimate_spec (ops : FloatOps) (prices : List ℚ) :
    (prices.length < 10 → OuParams.estimate ops prices = none) ∧
    (|olsDen prices| < 1 / 10 ^ 12 → OuParams.estimate ops prices = none) ∧
    (olsSlope prices ≤ 0 ∨ 1 ≤ olsSlope prices →
      OuParams.estimate ops prices = none) ∧
    (∀ p, OuParams.estimate ops prices = some p →
      0 < p.b ∧ p.b < 1 ∧ p.b = olsSlope prices) := by
  refine ⟨?_, ?_, ?_, ?_⟩
  · intro h
    unfold OuParams.estimate
    rw [if_pos h]
  · intro h
    unfold OuParams.estimate
    split_ifs with h1 h2 h3 h4 h5 <;> first | rfl | exact absurd h h2
  · intro h
    unfold OuParams.estimate
    split_ifs with h1 h2 h3 h4 h5 <;> first | rfl | exact absurd h h3
  · intro p hp
    unfold OuParams.estimate at hp
    split_ifs at hp with h1 h2 h3 h4 h5
    push_neg at h3
    injection hp with hp
    subst hp
    exact ⟨h3.1, h3.2, rfl⟩

/-- Witness for C5: a 10-point price list lying exactly on the AR(1) line
`y = 1 + x/2`, so the OLS slope is exactly `1/2`; the abstracted
transcendentals are `rln := fun _ => -1`, `rsqrt := fun q => q`,
`ln2 := 7/10`. -/
theorem ou_estimate_spec_witness :
    0 < (⟨2, 0, 1, 1/2, 7/10⟩ : OuParams).b ∧
    (⟨2, 0, 1, 1/2, 7/10⟩ : OuParams).b < 1 ∧
    (⟨2, 0, 1, 1/2, 7/10⟩ : OuParams).b =
      olsSlope [4, 3, 5/2, 9/4, 17/8, 33/16, 65/32, 129/64, 257/128, 513/256] :=
  (ou_estimate_spec ⟨fun _ => -1, fun q => q, 7/10⟩
      [4, 3, 5/2, 9/4, 17/8, 33/16, 65/32, 129/64, 257/128, 513/256]).2.2.2
    ⟨2, 0, 1, 1/2, 7/10⟩ (by
      have hs : olsSlope [4, 3, 5/2, 9/4, 17/8, 33/16, 65/32, 129/64, 257/128, 513/256]
          = 1/2 := by
        norm_num [olsSlope, olsNum, olsDen, olsXMean, olsYMean, olsX, olsY]
      have hd : olsDen [4, 3, 5/2, 9/4, 17/8, 33/16, 65/32, 129/64, 257/128, 513/256]
          = 131327/36864 := by
        norm_num [olsDen, olsXMean, olsX]
      have hi : olsIntercept [4, 3, 5/2, 9/4, 17/8, 33/16, 65/32, 129/64, 257/128, 513/256]
          = 1 := by
        norm_num [olsIntercept, hs, olsYMean, olsXMean, olsX, olsY]
      have hr : residuals [4, 3, 5/2, 9/4, 17/8, 33/16, 65/32, 129/64, 257/128, 513/256]
          = [0, 0, 0, 0, 0, 0, 0, 0, 0] := by
        norm_num [residuals, hs, hi, olsX, olsY]
      unfold OuParams.estimate
      rw [if_neg (by norm_num), if_neg (by rw [hd, abs_of_pos (by norm_num)]; norm_num),
        if_neg (by rw [hs]; norm_num), if_neg (by norm_num), if_neg (by rw [hs]; norm_num)]
      rw [hs, hi, hr]
      norm_num [std_dev])

/-- A trade tick, mirroring `TradeTick` in `models/ofi.rs`. -/
structure TradeTick where
  price  : ℚ
  volume : ℚ
  is_buy : Bool
  ts_ms  : ℤ
deriving DecidableEq

/-- Rolling Order-Flow-Imbalance engine state, mirroring `OfiEngine` in
`models/ofi.rs`.  The `VecDeque` buffers are lists with the oldest element
at the head. -/
structure OfiEngine where
  window : ℕ
  signed_vol_buf : List ℚ
  abs_vol_buf : List ℚ
  sum_signed : ℚ
  sum_abs : ℚ
deriving DecidableEq

/-- Embedding of `OfiEngine::new` (`ofi.rs`, lines 77-85). -/
def OfiEngine.new (window : ℕ) : OfiEngine := ⟨window, [], [], 0, 0⟩

/-- The signed volume of a tick as computed at the top of
`OfiEngine::push`: `+volume` if buyer-initiated, `-volume` otherwise. -/
def signedVol (tick : TradeTick) : ℚ :=
  if tick.is_buy then tick.volume else -tick.volume

/-- Embedding of `OfiEngine::push` (`ofi.rs`, lines 90-108): append the
signed and absolute volume, update the running sums incrementally, and
evict the oldest entry when the window is exceeded
(`pop_front().unwrap_or(0.0)` becomes `headD 0`; the append-then-evict
sequence of the source is written as one conditional).  The Rust method
also returns `self.ofi()`, which is read separately with `OfiEngine.ofi`. -/
def OfiEngine.push (e : OfiEngine) (tick : TradeTick) : OfiEngine :=
  if e.window < (e.signed_vol_buf ++ [signedVol tick]).length then
    ⟨e.window, (e.signed_vol_buf ++ [signedVol tick]).tail,
      (e.abs_vol_buf ++ [tick.volume]).tail,
      e.sum_signed + signedVol tick - (e.signed_vol_buf ++ [signedVol tick]).headD 0,
      e.sum_abs + tick.volume - (e.abs_vol_buf ++ [tick.volume]).headD 0⟩
  else
    ⟨e.window, e.signed_vol_buf ++ [signedVol tick], e.abs_vol_buf ++ [tick.volume],
      e.sum_signed + signedVol tick, e.sum_abs + tick.volume⟩

/-- Embedding of `OfiEngine::ofi` (`ofi.rs`, lines 111-116). -/
def OfiEngine.ofi (e : OfiEngine) : ℚ :=
  if e.sum_abs < 1 / 10 ^ 12 then 0 else e.sum_signed / e.sum_abs

/-- Structural invariant of the OFI engine: the absolute buffer is the
pointwise absolute value of the signed buffer, and the incremental running
sums agree with the buffer sums. -/
def OfiEngine.Good (e : OfiEngine) : Prop :=
  e.abs_vol_buf = e.signed_vol_buf.map (fun q => |q|) ∧
  e.sum_signed = e.signed_vol_buf.sum ∧
  e.sum_abs = e.abs_vol_buf.sum

theorem OfiEngine.good_new (w : ℕ) : (OfiEngine.new w).Good :=
  ⟨rfl, rfl, rfl⟩

theorem list_sum_tail (l : List ℚ) : l.tail.sum = l.sum - l.headD 0 := by
  cases l with
  | nil => simp
  | cons a t => simp [List.sum_cons]

theorem list_map_tail (f : ℚ → ℚ) (l : List ℚ) : l.tail.map f = (l.map f).tail := by
  cases l <;> rfl

theorem abs_signedVol (t : TradeTick) (hv : 0 ≤ t.volume) :
    |signedVol t| = t.volume := by
  unfold signedVol
  split
  · exact abs_of_nonneg hv
  · rw [abs_neg]
    exact abs_of_nonneg hv

theorem OfiEngine.good_push (e : OfiEngine) (t : TradeTick) (he : e.Good)
    (hv : 0 ≤ t.volume) : (e.push t).Good := by
  obtain ⟨h1, h2, h3⟩ := he
  have habs := abs_signedVol t hv
  unfold OfiEngine.push
  split
  · refine ⟨?_, ?_, ?_⟩
    · show (e.abs_vol_buf ++ [t.volume]).tail = _
      rw [h1, ← habs, list_map_tail, List.map_append, List.map_singleton]
    · show e.sum_signed + signedVol t - (e.signed_vol_buf ++ [signedVol t]).headD 0 = _
      rw [list_sum_tail, List.sum_append, List.sum_singleton, h2]
    · show e.sum_abs + t.volume - (e.abs_vol_buf ++ [t.volume]).headD 0 = _
      rw [list_sum_tail, List.sum_append, List.sum_singleton, h3]
  · refine ⟨?_, ?_, ?_⟩
    · show e.abs_vol_buf ++ [t.volume] = _
      rw [h1, ← habs, List.map_append, List.map_singleton]
    · show e.sum_signed + signedVol t = _
      rw [List.sum_append, List.sum_singleton, h2]
    · show e.sum_abs + t.volume = _
      rw [List.sum_append, List.sum_singleton, h3]

theorem OfiEngine.good_foldl (e : OfiEngine) (ticks : List TradeTick) (he : e.Good)
    (hv : ∀ t ∈ ticks, 0 ≤ t.volume) : (ticks.foldl OfiEngine.push e).Good := by
  induction ticks generalizing e with
  | nil => exact he
  | cons t ts ih =>
    exact ih _ (OfiEngine.good_push e t he (hv t (by simp)))
      (fun x hx => hv x (by simp [hx]))

theorem list_abs_sum_le (l : List ℚ) : |l.sum| ≤ (l.map (fun q => |q|)).sum := by
  induction l with
  | nil => simp
  | cons a t ih =>
    simp only [List.sum_cons, List.map_cons]
    exact (abs_add _ _).trans (by linarith)

theorem list_map_abs_nonneg (l : List ℚ) : 0 ≤ (l.map (fun q => |q|)).sum := by
  induction l with
  | nil => simp
  | cons a t ih =>
    simp only [List.sum_cons, List.map_cons]
    have := abs_nonneg a
    linarith

/-- Claim C7: after any sequence of pushed ticks with nonnegative volumes,
`OfiEngine::ofi` equals the rolling-window signed-volume sum divided by the
absolute-volume sum, is `0` when the absolute-volume sum is below the
near-zero cutoff `1e-12`, and always lies in `[-1, 1]`. -/
theorem ofi_spec (w : ℕ) (ticks : List TradeTick)
    (hv : ∀ t ∈ ticks, 0 ≤ t.volume) :
    ((ticks.foldl OfiEngine.push (OfiEngine.new w)).ofi =
      if (ticks.foldl OfiEngine.push (OfiEngine.new w)).abs_vol_buf.sum < 1 / 10 ^ 12
      then 0
      else (ticks.foldl OfiEngine.push (OfiEngine.new w)).signed_vol_buf.sum /
        (ticks.foldl OfiEngine.push (OfiEngine.new w)).abs_vol_buf.sum) ∧
    -1 ≤ (ticks.foldl OfiEngine.push (OfiEngine.new w)).ofi ∧
    (ticks.foldl OfiEngine.push (OfiEngine.new w)).ofi ≤ 1 := by
  obtain ⟨h1, h2, h3⟩ :=
    OfiEngine.good_foldl (OfiEngine.new w) ticks (OfiEngine.good_new w) hv
  set e := ticks.foldl OfiEngine.push (OfiEngine.new w) with he
  have hb : |e.sum_signed| ≤ e.sum_abs := by
    rw [h2, h3, h1]
    exact list_abs_sum_le _
  have hofi : e.ofi = if e.abs_vol_buf.sum < 1 / 10 ^ 12 then 0
      else e.signed_vol_buf.sum / e.abs_vol_buf.sum := by
    rw [OfiEngine.ofi, h2, h3]
  refine ⟨hofi, ?_⟩
  rw [OfiEngine.ofi]
  split
  · norm_num
  · rename_i hge
    have ha : 0 < e.sum_abs := lt_of_lt_of_le (by norm_num) (not_lt.mp hge)
    have h1' : |e.sum_signed / e.sum_abs| ≤ 1 := by
      rw [abs_div, abs_of_pos ha]
      exact (div_le_one ha).mpr hb
    exact abs_le.mp h1'

/-- Witness for C7 with one buy tick of volume 1 and one sell tick of
volume 2 through a window of 4. -/
theorem ofi_spec_witness :
    (([⟨100, 1, true, 0⟩, ⟨100, 2, false, 0⟩] :
        List TradeTick).foldl OfiEngine.push (OfiEngine.new 4)).ofi =
      (if (([⟨100, 1, true, 0⟩, ⟨100, 2, false, 0⟩] :
          List TradeTick).foldl OfiEngine.push (OfiEngine.new 4)).abs_vol_buf.sum
            < 1 / 10 ^ 12
      then 0
      else (([⟨100, 1, true, 0⟩, ⟨100, 2, false, 0⟩] :
          List TradeTick).foldl OfiEngine.push (OfiEngine.new 4)).signed_vol_buf.sum /
        (([⟨100, 1, true, 0⟩, ⟨100, 2, false, 0⟩] :
          List TradeTick).foldl OfiEngine.push (OfiEngine.new 4)).abs_vol_buf.sum) ∧
    -1 ≤ (([⟨100, 1, true, 0⟩, ⟨100, 2, false, 0⟩] :
        List TradeTick).foldl OfiEngine.push (OfiEngine.new 4)).ofi ∧
    (([⟨100, 1, true, 0⟩, ⟨100, 2, false, 0⟩] :
        List TradeTick).foldl OfiEngine.push (OfiEngine.new 4)).ofi ≤ 1 :=
  ofi_spec 4 [⟨100, 1, true, 0⟩, ⟨100, 2, false, 0⟩] (by
    intro t ht
    simp only [List.mem_cons, List.not_mem_nil, or_false] at ht
    rcases ht with rfl | rfl <;> norm_num)

/-- A volume bucket, mirroring `VpinBucket` in `models/ofi.rs`. -/
structure VpinBucket where
  buy_vol  : ℚ
  sell_vol : ℚ
  total    : ℚ
deriving DecidableEq

/-- Embedding of `VpinBucket::imbalance_frac` (`ofi.rs`, lines 139-144). -/
def VpinBucket.imbalance_frac (b : VpinBucket) : ℚ :=
  if b.total < 1 / 10 ^ 12 then 0 else |b.buy_vol - b.sell_vol| / b.total

/-- VPIN engine state, mirroring `VpinEngine` in `models/ofi.rs`.  The
`VecDeque` of finished buckets is a list with the oldest bucket at the
head. -/
structure VpinEngine where
  bucket_size : ℚ
  n_buckets : ℕ
  current_bucket : VpinBucket
  current_vol : ℚ
  finished_buckets : List VpinBucket
  last_price : ℚ
deriving DecidableEq

/-- Embedding of `VpinEngine::new` (`ofi.rs`, lines 168-177). -/
def VpinEngine.new (bucket_size : ℚ) (n_buckets : ℕ) : VpinEngine :=
  ⟨bucket_size, n_buckets, ⟨0, 0, 0⟩, 0, [], 0⟩

/-- The fill amount of one iteration of the `VpinEngine::push` loop:
`fill = remaining_vol.min(space)` with `space = bucket_size - current_vol`. -/
def VpinEngine.fillAmount (remaining : ℚ) (e : VpinEngine) : ℚ :=
  min remaining (e.bucket_size - e.current_vol)

/-- The accumulation step of the `VpinEngine::push` loop body: add `fill`
volume on the tick's side into the current bucket and its volume counter. -/
def VpinEngine.addFill (e : VpinEngine) (is_buy : Bool) (fill : ℚ) : VpinEngine :=
  if is_buy then
    { e with
      current_bucket := ⟨e.current_bucket.buy_vol + fill, e.current_bucket.sell_vol,
        e.current_bucket.total + fill⟩,
      current_vol := e.current_vol + fill }
  else
    { e with
      current_bucket := ⟨e.current_bucket.buy_vol, e.current_bucket.sell_vol + fill,
        e.current_bucket.total + fill⟩,
      current_vol := e.current_vol + fill }

/-- The bucket-close step of the `VpinEngine::push` loop body: roll the
full current bucket into the window, evict the oldest finished bucket when
the window would exceed `n_buckets`, and reset the current bucket. -/
def VpinEngine.closeBucket (e : VpinEngine) : VpinEngine :=
  { e with
    finished_buckets :=
      if e.n_buckets < (e.finished_buckets ++ [e.current_bucket]).length then
        (e.finished_buckets ++ [e.current_bucket]).tail
      else e.finished_buckets ++ [e.current_bucket],
    current_bucket := ⟨0, 0, 0⟩,
    current_vol := 0 }

/-- One full iteration of the `VpinEngine::push` loop body (`ofi.rs`,
lines 188-209): fill the current bucket, then close it when
`current_vol >= bucket_size - 1e-10`. -/
def VpinEngine.stepFill (is_buy : Bool) (remaining : ℚ) (e : VpinEngine) : VpinEngine :=
  if (e.addFill is_buy (VpinEngine.fillAmount remaining e)).bucket_size - 1 / 10 ^ 10
      ≤ (e.addFill is_buy (VpinEngine.fillAmount remaining e)).current_vol then
    (e.addFill is_buy (VpinEngine.fillAmount remaining e)).closeBucket
  else
    e.addFill is_buy (VpinEngine.fillAmount remaining e)

/-- The `while remaining_vol > 1e-10` loop of `VpinEngine::push`
(`ofi.rs`, lines 187-210), indexed by fuel; `none` means the fuel ran out
before the loop exited. -/
def VpinEngine.pushLoop (is_buy : Bool) : ℕ → ℚ → VpinEngine → Option VpinEngine
  | 0, remaining, e => if 1 / 10 ^ 10 < remaining then none else some e
  | fuel + 1, remaining, e =>
    if 1 / 10 ^ 10 < remaining then
      VpinEngine.pushLoop is_buy fuel (remaining - VpinEngine.fillAmount remaining e)
        (VpinEngine.stepFill is_buy remaining e)
    else some e

/-- Embedding of `VpinEngine::vpin` (`ofi.rs`, lines 224-233). -/
def VpinEngine.vpin (e : VpinEngine) : ℚ :=
  if ((e.finished_buckets.length : ℚ)) < 1 then 0
  else (e.finished_buckets.map VpinBucket.imbalance_frac).sum /
    ((e.finished_buckets.length : ℚ))

/-- Embedding of `VpinEngine::push` (`ofi.rs`, lines 183-219) at a given
fuel: run the splitting loop, record the last price, and return the VPIN
value when at least one bucket has completed. -/
def VpinEngine.pushWith (fuel : ℕ) (e : VpinEngine) (tick : TradeTick) :
    Option (VpinEngine × Option ℚ) :=
  (VpinEngine.pushLoop tick.is_buy fuel tick.volume e).map fun e1 =>
    ({ e1 with last_price := tick.price },
      if e1.finished_buckets.isEmpty then none
      else some (VpinEngine.vpin { e1 with last_price := tick.price }))

/-- Ghost accounting: the remaining (dropped) volume at loop exit, by the
same recursion as `VpinEngine.pushLoop`. -/
def VpinEngine.pushLoopRem (is_buy : Bool) : ℕ → ℚ → VpinEngine → ℚ
  | 0, remaining, _ => remaining
  | fuel + 1, remaining, e =>
    if 1 / 10 ^ 10 < remaining then
      VpinEngine.pushLoopRem is_buy fuel (remaining - VpinEngine.fillAmount remaining e)
        (VpinEngine.stepFill is_buy remaining e)
    else remaining

/-- Ghost accounting: the volume of the bucket evicted by a close step, if
any. -/
def VpinEngine.evictedVol (e : VpinEngine) : ℚ :=
  if e.n_buckets < (e.finished_buckets ++ [e.current_bucket]).length then
    ((e.finished_buckets ++ [e.current_bucket]).headD ⟨0, 0, 0⟩).total
  else 0

/-- Ghost accounting: the volume evicted from the rolling window by one
loop iteration. -/
def VpinEngine.stepEvict (is_buy : Bool) (remaining : ℚ) (e : VpinEngine) : ℚ :=
  if (e.addFill is_buy (VpinEngine.fillAmount remaining e)).bucket_size - 1 / 10 ^ 10
      ≤ (e.addFill is_buy (VpinEngine.fillAmount remaining e)).current_vol then
    VpinEngine.evictedVol (e.addFill is_buy (VpinEngine.fillAmount remaining e))
  else 0

/-- Ghost accounting: total volume evicted from the rolling window over the
whole loop, by the same recursion as `VpinEngine.pushLoop`. -/
def VpinEngine.pushLoopEvict (is_buy : Bool) : ℕ → ℚ → VpinEngine → ℚ
  | 0, _, _ => 0
  | fuel + 1, remaining, e =>
    if 1 / 10 ^ 10 < remaining then
      VpinEngine.stepEvict is_buy remaining e +
        VpinEngine.pushLoopEvict is_buy fuel
          (remaining - VpinEngine.fillAmount remaining e)
          (VpinEngine.stepFill is_buy remaining e)
    else 0

/-- Volume held by the engine: totals of the retained finished buckets plus
the open bucket's total. -/
def VpinEngine.allVol (e : VpinEngine) : ℚ :=
  (e.finished_buckets.map VpinBucket.total).sum + e.current_bucket.total

/-- Bucket bookkeeping consistency: the open bucket's sides sum to its
total, `current_vol` agrees with the open bucket's total, and every
retained finished bucket's sides sum to its total. -/
def VpinEngine.Consistent (e : VpinEngine) : Prop :=
  e.current_bucket.buy_vol + e.current_bucket.sell_vol = e.current_bucket.total ∧
  e.current_vol = e.current_bucket.total ∧
  ∀ b ∈ e.finished_buckets, b.buy_vol + b.sell_vol = b.total

theorem VpinEngine.addFill_fields (e : VpinEngine) (is_buy : Bool) (f : ℚ) :
    (e.addFill is_buy f).bucket_size = e.bucket_size ∧
    (e.addFill is_buy f).n_buckets = e.n_buckets ∧
    (e.addFill is_buy f).current_vol = e.current_vol + f ∧
    (e.addFill is_buy f).finished_buckets = e.finished_buckets ∧
    (e.addFill is_buy f).current_bucket.total = e.current_bucket.total + f ∧
    (e.addFill is_buy f).current_bucket.buy_vol + (e.addFill is_buy f).current_bucket.sell_vol
      = e.current_bucket.buy_vol + e.current_bucket.sell_vol + f := by
  unfold VpinEngine.addFill
  split
  · exact ⟨rfl, rfl, rfl, rfl, rfl, by ring⟩
  · exact ⟨rfl, rfl, rfl, rfl, rfl, by ring⟩

theorem list_bucket_sum_tail (l : List VpinBucket) :
    (l.tail.map VpinBucket.total).sum
      = (l.map VpinBucket.total).sum - (l.headD ⟨0, 0, 0⟩).total := by
  cases l with
  | nil => simp [VpinBucket.total]
  | cons a t => simp [List.sum_cons]

theorem VpinEngine.closeBucket_fields (e : VpinEngine) :
    (e.closeBucket).bucket_size = e.bucket_size ∧
    (e.closeBucket).n_buckets = e.n_buckets ∧
    (e.closeBucket).current_vol = 0 ∧
    (e.closeBucket).current_bucket = ⟨0, 0, 0⟩ ∧
    (e.closeBucket).allVol + e.evictedVol
      = (e.finished_buckets.map VpinBucket.total).sum + e.current_bucket.total := by
  refine ⟨rfl, rfl, rfl, rfl, ?_⟩
  unfold VpinEngine.closeBucket VpinEngine.evictedVol VpinEngine.allVol
  split
  · show ((e.finished_buckets ++ [e.current_bucket]).tail.map VpinBucket.total).sum
        + (0 : ℚ) + _ = _
    rw [list_bucket_sum_tail, List.map_append, List.sum_append]
    simp [VpinBucket.total]
  · show ((e.finished_buckets ++ [e.current_bucket]).map VpinBucket.total).sum
        + (0 : ℚ) + 0 = _
    rw [List.map_append, List.sum_append]
    simp [VpinBucket.total]

theorem VpinEngine.stepFill_allVol (is_buy : Bool) (rem : ℚ) (e : VpinEngine) :
    (VpinEngine.stepFill is_buy rem e).allVol + VpinEngine.stepEvict is_buy rem e
      = e.allVol + VpinEngine.fillAmount rem e := by
  have hf := VpinEngine.addFill_fields e is_buy (VpinEngine.fillAmount rem e)
  have hA : (e.addFill is_buy (VpinEngine.fillAmount rem e)).allVol
      = e.allVol + VpinEngine.fillAmount rem e := by
    unfold VpinEngine.allVol
    rw [hf.2.2.2.1, hf.2.2.2.2.1]
    ring
  unfold VpinEngine.stepFill VpinEngine.stepEvict
  split
  · have h5 := (VpinEngine.closeBucket_fields
      (e.addFill is_buy (VpinEngine.fillAmount rem e))).2.2.2.2
    have hA' : (e.addFill is_buy (VpinEngine.fillAmount rem e)).allVol
        = ((e.addFill is_buy (VpinEngine.fillAmount rem e)).finished_buckets.map
            VpinBucket.total).sum
          + (e.addFill is_buy (VpinEngine.fillAmount rem e)).current_bucket.total := rfl
    linarith
  · rw [hA]
    ring

theorem VpinEngine.closeBucket_consistent (e : VpinEngine)
    (h1 : e.current_bucket.buy_vol + e.current_bucket.sell_vol = e.current_bucket.total)
    (h3 : ∀ b ∈ e.finished_buckets, b.buy_vol + b.sell_vol = b.total) :
    (e.closeBucket).Consistent := by
  refine ⟨?_, ?_, ?_⟩
  · rw [(VpinEngine.closeBucket_fields e).2.2.2.1]
    norm_num
  · rw [(VpinEngine.closeBucket_fields e).2.2.1, (VpinEngine.closeBucket_fields e).2.2.2.1]
  intro b hb
  have hmem : b ∈ e.finished_buckets ++ [e.current_bucket] := by
    unfold VpinEngine.closeBucket at hb
    simp only at hb
    split at hb
    · exact List.mem_of_mem_tail hb
    · exact hb
  rcases List.mem_append.mp hmem with h | h
  · exact h3 b h
  · rw [List.mem_singleton.mp h]
    exact h1

theorem VpinEngine.stepFill_consistent (is_buy : Bool) (rem : ℚ) (e : VpinEngine)
    (hc : e.Consistent) : (VpinEngine.stepFill is_buy rem e).Consistent := by
  obtain ⟨h1, h2, h3⟩ := hc
  have hf := VpinEngine.addFill_fields e is_buy (VpinEngine.fillAmount rem e)
  have hc1 : (e.addFill is_buy (VpinEngine.fillAmount rem e)).Consistent := by
    refine ⟨?_, ?_, ?_⟩
    · rw [hf.2.2.2.2.2, hf.2.2.2.2.1, h1]
    · rw [hf.2.2.1, hf.2.2.2.2.1, h2]
    · rw [hf.2.2.2.1]
      exact h3
  unfold VpinEngine.stepFill
  split
  · exact VpinEngine.closeBucket_consistent _ hc1.1 hc1.2.2
  · exact hc1

theorem VpinEngine.stepFill_bucket_size (is_buy : Bool) (rem : ℚ) (e : VpinEngine) :
    (VpinEngine.stepFill is_buy rem e).bucket_size = e.bucket_size := by
  unfold VpinEngine.stepFill
  split
  · exact (VpinEngine.closeBucket_fields _).1.trans
      (VpinEngine.addFill_fields e is_buy _).1
  · exact (VpinEngine.addFill_fields e is_buy _).1

/-- At-rest invariant of the open bucket: either empty or strictly below
the close threshold `bucket_size - 1e-10`.  It holds for a fresh engine and
is preserved by every loop iteration. -/
def VpinEngine.OpenInv (e : VpinEngine) : Prop :=
  e.current_vol = 0 ∨ e.current_vol < e.bucket_size - 1 / 10 ^ 10

theorem VpinEngine.stepFill_openInv (is_buy : Bool) (rem : ℚ) (e : VpinEngine) :
    (VpinEngine.stepFill is_buy rem e).OpenInv := by
  unfold VpinEngine.stepFill
  split
  · exact Or.inl (VpinEngine.closeBucket_fields _).2.2.1
  · rename_i h
    exact Or.inr (not_le.mp h)

/-- Claim C6 (amended): every successful run of the `VpinEngine::push`
splitting loop conserves volume up to the loop's `1e-10` residual cutoff:
the engine's held volume plus the volume evicted from the rolling window
grows by exactly the pushed volume minus a residual in `[0, 1e-10]`, and
bucket bookkeeping stays consistent (`buy + sell = total` for the open
bucket and every retained closed bucket, with `current_vol` equal to the
open bucket's total). -/
theorem vpin_push_conservation (is_buy : Bool) (fuel : ℕ) :
    ∀ (v : ℚ) (e e' : VpinEngine), 0 ≤ v → e.Consistent →
      VpinEngine.pushLoop is_buy fuel v e = some e' →
      e'.allVol + VpinEngine.pushLoopEvict is_buy fuel v e
          = e.allVol + v - VpinEngine.pushLoopRem is_buy fuel v e ∧
        0 ≤ VpinEngine.pushLoopRem is_buy fuel v e ∧
        VpinEngine.pushLoopRem is_buy fuel v e ≤ 1 / 10 ^ 10 ∧
        e'.Consistent := by
  induction fuel with
  | zero =>
    intro v e e' hv hc h
    unfold VpinEngine.pushLoop at h
    unfold VpinEngine.pushLoopRem VpinEngine.pushLoopEvict
    split at h
    · exact Option.noConfusion h
    · rename_i hle
      injection h with h
      subst h
      exact ⟨by ring, hv, not_lt.mp hle, hc⟩
  | succ n ih =>
    intro v e e' hv hc h
    unfold VpinEngine.pushLoop at h
    unfold VpinEngine.pushLoopRem VpinEngine.pushLoopEvict
    split at h
    · rename_i hgt
      rw [if_pos hgt, if_pos hgt]
      have hfill_le : VpinEngine.fillAmount v e ≤ v := min_le_left _ _
      have hv' : 0 ≤ v - VpinEngine.fillAmount v e := by linarith
      have hc' := VpinEngine.stepFill_consistent is_buy v e hc
      obtain ⟨ha, hr0, hr1, hcc⟩ := ih _ _ _ hv' hc' h
      have hstep := VpinEngine.stepFill_allVol is_buy v e
      exact ⟨by linarith, hr0, hr1, hcc⟩
    · rename_i hle
      rw [if_neg hle, if_neg hle]
      injection h with h
      subst h
      exact ⟨by ring, hv, not_lt.mp hle, hc⟩

/-- Claim C9: for a positive configured bucket size and an open bucket
satisfying the at-rest invariant, every loop iteration with remaining
volume above the `1e-10` cutoff makes strictly positive progress, and the
splitting loop of `VpinEngine::push` terminates within any fuel budget of
at least `(v - 1e-10) / min bucket_size 1e-10` iterations. -/
theorem vpin_push_terminates (is_buy : Bool) (fuel : ℕ) (v : ℚ) (e : VpinEngine)
    (hB : 0 < e.bucket_size) (hinv : e.OpenInv) :
    (1 / 10 ^ 10 < v → 0 < VpinEngine.fillAmount v e) ∧
    (v ≤ 1 / 10 ^ 10 + fuel * min e.bucket_size (1 / 10 ^ 10) →
      (VpinEngine.pushLoop is_buy fuel v e).isSome = true) := by
  have hspace : ∀ (e1 : VpinEngine), 0 < e1.bucket_size → e1.OpenInv →
      min e1.bucket_size (1 / 10 ^ 10) ≤ e1.bucket_size - e1.current_vol := by
    intro e1 hB1 hinv1
    rcases hinv1 with h0 | hlt
    · rw [h0, sub_zero]
      exact min_le_left _ _
    · exact le_trans (min_le_right _ _) (by linarith)
  constructor
  · intro hgt
    apply lt_min
    · linarith
    · calc (0 : ℚ) < min e.bucket_size (1 / 10 ^ 10) :=
            lt_min hB (by norm_num)
        _ ≤ e.bucket_size - e.current_vol := hspace e hB hinv
  · induction fuel generalizing v e with
    | zero =>
      intro hbound
      unfold VpinEngine.pushLoop
      rw [Nat.cast_zero, zero_mul, add_zero] at hbound
      rw [if_neg (not_lt.mpr hbound)]
      rfl
    | succ n ih =>
      intro hbound
      unfold VpinEngine.pushLoop
      split
      · rename_i hgt
        apply ih (v - VpinEngine.fillAmount v e) (VpinEngine.stepFill is_buy v e)
        · rw [VpinEngine.stepFill_bucket_size]
          exact hB
        · exact VpinEngine.stepFill_openInv is_buy v e
        · rw [VpinEngine.stepFill_bucket_size]
          have hsp := hspace e hB hinv
          have hδ : (0 : ℚ) < min e.bucket_size (1 / 10 ^ 10) := lt_min hB (by norm_num)
          rcases le_or_lt v (e.bucket_size - e.current_vol) with hcase | hcase
          · rw [VpinEngine.fillAmount, min_eq_left hcase]
            have hn : (0 : ℚ) ≤ (n : ℚ) * min e.bucket_size (1 / 10 ^ 10) := by
              have : (0 : ℚ) ≤ (n : ℚ) := Nat.cast_nonneg n
              exact mul_nonneg this (le_of_lt hδ)
            linarith
          · rw [VpinEngine.fillAmount, min_eq_right (le_of_lt hcase)]
            push_cast at hbound ⊢
            linarith
      · rfl

/-- Counterexample to claim C6 as stated: a single tick with the positive
volume `1/10^11` never enters the splitting loop (the loop runs only while
`remaining > 1e-10`), so the engine's bucket volumes stay at `0` and the
pushed volume is dropped entirely: the sum of closed-bucket totals plus the
open bucket's volume is `0`, not `1/10^11`. -/
theorem vpin_push_conservation_counterexample :
    VpinEngine.pushWith 1 (VpinEngine.new 1 5) ⟨100, 1 / 10 ^ 11, true, 0⟩
      = some (⟨1, 5, ⟨0, 0, 0⟩, 0, [], 100⟩, none) ∧
    (0 : ℚ) < 1 / 10 ^ 11 ∧
    VpinEngine.allVol ⟨1, 5, ⟨0, 0, 0⟩, 0, [], 100⟩ = 0 ∧
    VpinEngine.allVol (VpinEngine.new 1 5) + 1 / 10 ^ 11 ≠ 0 := by
  refine ⟨?_, by norm_num, by norm_num [VpinEngine.allVol],
    by norm_num [VpinEngine.allVol, VpinEngine.new]⟩
  norm_num [VpinEngine.pushWith, VpinEngine.pushLoop, VpinEngine.new]

/-- Witness for C6 (amended): pushing volume `2` with bucket size `1` into
a fresh engine closes two buckets of total `1` each and leaves no residual. -/
theorem vpin_push_conservation_witness :
    (⟨1, 5, ⟨0, 0, 0⟩, 0, [⟨1, 0, 1⟩, ⟨1, 0, 1⟩], 0⟩ : VpinEngine).allVol
        + VpinEngine.pushLoopEvict true 2 2 (VpinEngine.new 1 5)
      = (VpinEngine.new 1 5).allVol + 2
        - VpinEngine.pushLoopRem true 2 2 (VpinEngine.new 1 5) ∧
    0 ≤ VpinEngine.pushLoopRem true 2 2 (VpinEngine.new 1 5) ∧
    VpinEngine.pushLoopRem true 2 2 (VpinEngine.new 1 5) ≤ 1 / 10 ^ 10 ∧
    (⟨1, 5, ⟨0, 0, 0⟩, 0, [⟨1, 0, 1⟩, ⟨1, 0, 1⟩], 0⟩ : VpinEngine).Consistent :=
  vpin_push_conservation true 2 2 (VpinEngine.new 1 5)
    ⟨1, 5, ⟨0, 0, 0⟩, 0, [⟨1, 0, 1⟩, ⟨1, 0, 1⟩], 0⟩ (by norm_num)
    (by
      refine ⟨by norm_num [VpinEngine.new], by norm_num [VpinEngine.new], ?_⟩
      intro b hb
      simp [VpinEngine.new] at hb)
    (by norm_num [VpinEngine.pushLoop, VpinEngine.stepFill, VpinEngine.fillAmount,
      VpinEngine.addFill, VpinEngine.closeBucket, VpinEngine.new])

/-- Witness for C9: a fresh engine with bucket size `1` and a pushed volume
of `2` makes positive progress and terminates within `2 * 10^10` fuel. -/
theorem vpin_push_terminates_witness :
    0 < VpinEngine.fillAmount 2 (VpinEngine.new 1 5) ∧
    (VpinEngine.pushLoop true (2 * 10 ^ 10) 2 (VpinEngine.new 1 5)).isSome = true := by
  have h := vpin_push_terminates true (2 * 10 ^ 10) 2 (VpinEngine.new 1 5)
    (by norm_num [VpinEngine.new]) (Or.inl rfl)
  refine ⟨h.1 (by norm_num), h.2 ?_⟩
  show (2 : ℚ) ≤ 1 / 10 ^ 10 + ((2 * 10 ^ 10 : ℕ) : ℚ) * min (1 : ℚ) (1 / 10 ^ 10)
  rw [min_eq_right (by norm_num : (1 : ℚ) / 10 ^ 10 ≤ 1)]
  push_cast
  norm_num

/-- A parsed OHLCV bar, mirroring `Kline` in `data.rs`; the `open` field is
rendered `open_price` because `open` is a Lean keyword. -/
structure Kline where
  open_time  : ℤ
  open_price : ℚ
  high       : ℚ
  low        : ℚ
  close      : ℚ
  volume     : ℚ
  close_time : ℤ
  quote_vol  : ℚ
  n_trades   : ℤ
  taker_buy_base_vol : ℚ
deriving DecidableEq

/-- Embedding of `Kline::to_tick` (`data.rs`, lines 49-62): the taker-buy
fraction defaults to `1/2` when the bar's volume is not positive, and the
tick is classified as a buy only when the fraction strictly exceeds `1/2`;
the tick carries the bar's close price, volume, and close timestamp. -/
def Kline.to_tick (k : Kline) : TradeTick :=
  ⟨k.close, k.volume,
    decide ((1 : ℚ) / 2 <
      (if 0 < k.volume then k.taker_buy_base_vol / k.volume else 1 / 2)),
    k.close_time⟩

/-- Claim C10: a bar with zero volume converts to a synthetic tick that is
classified as a sell (`is_buy = false`), because the buy fraction defaults
to `1/2` and classification requires strictly more than `1/2`; the tick
carries the bar's close price, its (zero) volume, and its close timestamp. -/
theorem kline_to_tick_zero_volume (k : Kline) (h : k.volume = 0) :
    (k.to_tick).is_buy = false ∧ (k.to_tick).price = k.close ∧
    (k.to_tick).volume = k.volume ∧ (k.to_tick).ts_ms = k.close_time := by
  refine ⟨?_, rfl, rfl, rfl⟩
  have hfrac : (if 0 < k.volume then k.taker_buy_base_vol / k.volume else 1 / 2)
      = (1 : ℚ) / 2 := by
    rw [h]
    norm_num
  show decide ((1 : ℚ) / 2 <
    (if 0 < k.volume then k.taker_buy_base_vol / k.volume else 1 / 2)) = false
  rw [hfrac, decide_eq_false_iff_not]
  norm_num

/-- Witness for C10 at a concrete zero-volume bar closing at price 100 and
timestamp 5. -/
theorem kline_to_tick_zero_volume_witness :
    ((⟨0, 100, 100, 100, 100, 0, 5, 0, 0, 0⟩ : Kline).to_tick).is_buy = false ∧
    ((⟨0, 100, 100, 100, 100, 0, 5, 0, 0, 0⟩ : Kline).to_tick).price
      = (⟨0, 100, 100, 100, 100, 0, 5, 0, 0, 0⟩ : Kline).close ∧
    ((⟨0, 100, 100, 100, 100, 0, 5, 0, 0, 0⟩ : Kline).to_tick).volume
      = (⟨0, 100, 100, 100, 100, 0, 5, 0, 0, 0⟩ : Kline).volume ∧
    ((⟨0, 100, 100, 100, 100, 0, 5, 0, 0, 0⟩ : Kline).to_tick).ts_ms
      = (⟨0, 100, 100, 100, 100, 0, 5, 0, 0, 0⟩ : Kline).close_time :=
  kline_to_tick_zero_volume ⟨0, 100, 100, 100, 100, 0, 5, 0, 0, 0⟩ rfl

end MftEngine
